import Mathlib

/-!
Shallow embedding of the quantitative core of `src/app.py` (portfolio
analytics and optimization). Machine floats are modelled by exact
rationals; `np.sqrt` is passed in as an explicit function parameter
`s : ℚ → ℚ` at every place the source calls it, so every definition
stays computable. The IEEE special values produced by float division
are modelled by the inductive type `PyF` where a claim depends on them.
The `np.nan` sentinel returned by guarded functions is modelled as
`Option.none`; Python exceptions are modelled with `Except PyError`.
-/

namespace App

/-- Python exception kinds raised by the embedded code paths:
`indexError` models the `IndexError` from `df.iloc[0]` on an empty
frame, `valueError` models the pandas broadcast failure when a weight
list cannot be coerced to the column axis. -/
inductive PyError where
  | indexError
  | valueError
deriving DecidableEq, Repr

/-- Mean of a series, `Series.mean()`. For the empty series pandas
yields NaN; Lean's `x / 0 = 0` junk value stands in, and every theorem
below that depends on the mean assumes a nonempty series. -/
def mean (l : List ℚ) : ℚ := l.sum / l.length

/-- Sample variance with `ddof = 1`, the square of pandas
`Series.std()`. For series of length < 2 pandas yields NaN; the Lean
junk value `x / 0 = 0` stands in, and theorems that depend on the
standard deviation assume length ≥ 2. -/
def var1 (l : List ℚ) : ℚ :=
  (l.map (fun x => (x - mean l) ^ 2)).sum / ((l.length : ℚ) - 1)

/-- Pandas `Series.std()` (ddof = 1): square root of `var1`, with the
float square root passed in as `s`. -/
def std (s : ℚ → ℚ) (l : List ℚ) : ℚ := s (var1 l)

/-- Source line 12: `(1 + returns.mean())**252 - 1`. -/
def calcular_rendimiento_anualizado (returns : List ℚ) : ℚ :=
  (1 + mean returns) ^ 252 - 1

/-- Source line 16: `returns.std() * np.sqrt(252)`. -/
def calcular_volatilidad_anualizada (s : ℚ → ℚ) (returns : List ℚ) : ℚ :=
  std s returns * s 252

/-- One row of `(returns * pesos).sum(axis=1)`: elementwise product of
a date row with the weight list, then the row sum. -/
def rowDot (row pesos : List ℚ) : ℚ := (List.zipWith (· * ·) row pesos).sum

/-- Source `(returns * pesos).sum(axis=1)` (lines 25, 30, 35, 72, 103):
the return matrix is a list of date rows; each row is reduced against
the weights. -/
def portRet (pesos : List ℚ) (rows : List (List ℚ)) : List ℚ :=
  rows.map (fun r => rowDot r pesos)

/-- Source lines 24-26: annualized volatility of the weighted
portfolio returns. -/
def minimizar_volatilidad (s : ℚ → ℚ) (pesos : List ℚ) (rows : List (List ℚ)) : ℚ :=
  calcular_volatilidad_anualizada s (portRet pesos rows)

/-- Source lines 19-21: `(returns.mean() - rf/252) / returns.std() * np.sqrt(252)`.
Only used as an optimizer objective here, never inspected at zero
standard deviation by any claim, so the junk value of `x / 0` is
irrelevant to the theorems below. -/
def calcular_sharpe_ratio_anualizado (s : ℚ → ℚ) (returns : List ℚ) (rf : ℚ) : ℚ :=
  (mean returns - rf / 252) / std s returns * s 252

/-- Source lines 29-31: negated annualized Sharpe of the weighted
portfolio returns. -/
def maximizar_sharpe (s : ℚ → ℚ) (pesos : List ℚ) (rows : List (List ℚ)) (rf : ℚ) : ℚ :=
  -(calcular_sharpe_ratio_anualizado s (portRet pesos rows) rf)

/-- Source lines 34-38: `volatilidad if rendimiento_anualizado >= target_return else np.inf`.
The value `np.inf` is modelled as `⊤` in `WithTop ℚ`. -/
def volatilidad_con_objetivo (s : ℚ → ℚ) (pesos : List ℚ) (rows : List (List ℚ))
    (target : ℚ) : WithTop ℚ :=
  let pr := portRet pesos rows
  if target ≤ calcular_rendimiento_anualizado pr then
    ((calcular_volatilidad_anualizada s pr : ℚ) : WithTop ℚ)
  else ⊤

/-- Simple percent change between consecutive rows with the first
(undefined) row dropped: `df.pct_change().dropna()` for one column. -/
def pctChange (prices : List ℚ) : List ℚ :=
  List.zipWith (fun prev cur => cur / prev - 1) prices prices.tail

/-- Running products, `Series.cumprod()`. -/
def cumprodList : List ℚ → List ℚ
  | [] => []
  | x :: xs => x :: (cumprodList xs).map (fun y => x * y)

/-- Source line 92: `(1 + returns).cumprod() - 1` applied to the
percent changes of a price series. -/
def cumulativeOf (prices : List ℚ) : List ℚ :=
  (cumprodList ((pctChange prices).map (fun r => 1 + r))).map (fun y => y - 1)

/-- Source lines 90-94 (`calcular_metricas`) for one price column:
returns, cumulative returns and normalized prices. `df.iloc[0]` on an
empty frame raises `IndexError`; every nonempty frame succeeds. -/
def calcular_metricas (prices : List ℚ) : Except PyError (List ℚ × List ℚ × List ℚ) :=
  match prices with
  | [] => .error .indexError
  | p0 :: _ =>
    .ok (pctChange prices, cumulativeOf prices, prices.map (fun p => p / p0 * 100))

/-- Number of asset columns of the return matrix, `returns.shape[1]`
(well defined for the nonempty rectangular frames pandas produces). -/
def ncols (rows : List (List ℚ)) : Nat := (rows.headD []).length

/-- Source lines 102-103: `(returns * weights).sum(axis=1)`. Pandas
raises `ValueError` ("Unable to coerce to Series") when the weight
list length differs from the number of columns; otherwise each date
row is reduced to its weighted sum. -/
def calcular_rendimientos_portafolio (rows : List (List ℚ)) (weights : List ℚ) :
    Except PyError (List ℚ) :=
  if ncols rows = weights.length then
    .ok (rows.map (fun r => rowDot r weights))
  else .error .valueError

/-- Python slice `returns.iloc[-window:]`: for `window = 0` the slice
`-0:` is `0:`, the whole series; for `window > length` Python clips to
the whole series (matched by `drop 0`); otherwise the trailing
`window` elements. -/
def tailSlice (r : List ℚ) (window : Nat) : List ℚ :=
  if window = 0 then r else r.drop (r.length - window)

/-- Compound return `(1 + r).prod() - 1` of a return slice. -/
def compoundReturn (r : List ℚ) : ℚ := (r.map (fun x => 1 + x)).prod - 1

/-- Source lines 105-108: windowed compound return, `np.nan` (modelled
`none`) when the series is shorter than the window. -/
def calcular_rendimiento_ventana (r : List ℚ) (window : Nat) : Option ℚ :=
  if r.length < window then none
  else some (compoundReturn (tailSlice r window))

/-- Pandas `Series.quantile(q)` with the default linear interpolation:
sort the values, set `h = (n - 1) * q`, and interpolate between the
entries at positions `floor h` and `ceil h`. The upper index is
written `min (i + 1) (n - 1)`, which agrees with `ceil h` in value:
when `h` is an integer the interpolation weight is `0`, so the upper
entry does not contribute. The empty series (NaN in pandas) is outside
every theorem below. -/
def quantile (r : List ℚ) (q : ℚ) : ℚ :=
  (List.insertionSort (· ≤ ·) r).getD (⌊((r.length : ℚ) - 1) * q⌋.toNat) 0 +
    (((r.length : ℚ) - 1) * q - ((⌊((r.length : ℚ) - 1) * q⌋.toNat : ℕ) : ℚ)) *
      ((List.insertionSort (· ≤ ·) r).getD
          (min (⌊((r.length : ℚ) - 1) * q⌋.toNat + 1) (r.length - 1)) 0 -
        (List.insertionSort (· ≤ ·) r).getD (⌊((r.length : ℚ) - 1) * q⌋.toNat) 0)

/-- Source lines 126-129: `VaR = returns.quantile(1 - confidence)`,
`CVaR = returns[returns <= VaR].mean()`. -/
def calcular_var_cvar (returns : List ℚ) (confidence : ℚ) : ℚ × ℚ :=
  let VaR := quantile returns (1 - confidence)
  (VaR, mean (returns.filter (fun x => x ≤ VaR)))

/-- Source lines 131-135: windowed VaR/CVaR, `(np.nan, np.nan)`
(modelled `none`) when the series is shorter than the window;
otherwise `calcular_var_cvar` at the default confidence 0.95 on the
trailing slice. -/
def calcular_var_cvar_ventana (r : List ℚ) (window : Nat) : Option (ℚ × ℚ) :=
  if r.length < window then none
  else some (calcular_var_cvar (tailSlice r window) (95 / 100))

/-- Sample covariance entry `np.cov(a, m)[0, 1]` (numpy default
`ddof = 1`). -/
def covSample (a m : List ℚ) : ℚ :=
  ((a.zip m).map (fun p => (p.1 - mean a) * (p.2 - mean m))).sum / ((a.length : ℚ) - 1)

/-- Population variance `np.var(m)` (numpy default `ddof = 0`). -/
def varPop (m : List ℚ) : ℚ :=
  (m.map (fun x => (x - mean m) ^ 2)).sum / (m.length : ℚ)

/-- Population covariance `sum((a - mean a) * (m - mean m)) / n`; not
in the source, stated only to compare the source's mixed-convention
beta against a matching-convention covariance/variance ratio. -/
def covPop (a m : List ℚ) : ℚ :=
  ((a.zip m).map (fun p => (p.1 - mean a) * (p.2 - mean m))).sum / (a.length : ℚ)

/-- Source lines 110-113: sample covariance (ddof = 1) over population
variance (ddof = 0), with the `np.nan` guard for zero market variance
modelled as `none`. -/
def calcular_beta (asset_returns market_returns : List ℚ) : Option ℚ :=
  if varPop market_returns ≠ 0 then
    some (covSample asset_returns market_returns / varPop market_returns)
  else none

/-- IEEE-style float values as produced by numpy scalar arithmetic:
a finite value, the two infinities, or NaN. -/
inductive PyF where
  | fin (q : ℚ)
  | inf
  | ninf
  | nan
deriving DecidableEq, Repr

/-- Numpy float multiplication on the cases reachable from the code
below (a finite left factor against any right operand); unreachable
case pairs collapse to NaN. -/
def PyF.mul : PyF → PyF → PyF
  | .fin a, .fin b => .fin (a * b)
  | .fin a, .inf => if 0 < a then .inf else if a < 0 then .ninf else .nan
  | .fin a, .ninf => if 0 < a then .ninf else if a < 0 then .inf else .nan
  | _, _ => .nan

/-- Numpy float division on the cases reachable from the code below:
finite over finite follows IEEE (`x / 0` is a signed infinity for
nonzero `x` and NaN for `0 / 0`); unreachable case pairs collapse to
NaN. -/
def PyF.div : PyF → PyF → PyF
  | .fin a, .fin b =>
    if b = 0 then (if a = 0 then .nan else if 0 < a then .inf else .ninf)
    else .fin (a / b)
  | _, _ => .nan

/-- Source lines 115-117: `np.sqrt(252) * excess.mean() / excess.std()`
(parsed left to right: the product is formed first, then divided by
the standard deviation), with no guard against a zero standard
deviation. Series of length < 2, where pandas `std()` is NaN, are
outside every theorem below. -/
def calcular_sharpe_ratio (s : ℚ → ℚ) (returns : List ℚ) (rf : ℚ) : PyF :=
  let excess := returns.map (fun x => x - rf / 252)
  PyF.div (PyF.mul (.fin (s 252)) (.fin (mean excess))) (.fin (std s excess))

/-- Constraint kind accepted by `scipy.optimize.minimize`: an equality
constraint holds when its function is 0, an inequality constraint
when its function is ≥ 0. -/
inductive CType where
  | eq
  | ineq
deriving DecidableEq, Repr

/-- One entry of the `constraints` list handed to the solver. -/
structure Constraint where
  ctype : CType
  f : List ℚ → ℚ

/-- The full problem handed to one `scipy.optimize.minimize` call:
objective, initial point, box bounds and constraint list. The
objective takes values in `WithTop ℚ` so that the `np.inf` branch of
`volatilidad_con_objetivo` is representable. -/
structure OptProblem where
  n : Nat
  objective : List ℚ → WithTop ℚ
  x0 : List ℚ
  bounds : List (ℚ × ℚ)
  cons : List Constraint

/-- Result of one solver call: the terminal point `x` and the
convergence flag `success`. -/
structure SolverResult where
  x : List ℚ
  success : Bool

/-- Source lines 49-56: minimum-volatility problem. `n` is
`returns.shape[1]`, the start is the uniform vector `np.ones(n) / n`,
the bounds are `[(0, 1)] * n`, and the single equality constraint is
`sum(pesos) - 1`. -/
def minVolProblem (s : ℚ → ℚ) (rows : List (List ℚ)) : OptProblem :=
  let n := ncols rows
  { n := n
    objective := fun w => ((minimizar_volatilidad s w rows : ℚ) : WithTop ℚ)
    x0 := List.replicate n (1 / (n : ℚ))
    bounds := List.replicate n (0, 1)
    cons := [⟨.eq, fun pesos => pesos.sum - 1⟩] }

/-- Source lines 59-66: maximum-Sharpe problem, same start, bounds and
constraint as the minimum-volatility problem. -/
def maxSharpeProblem (s : ℚ → ℚ) (rows : List (List ℚ)) (rf : ℚ) : OptProblem :=
  let n := ncols rows
  { n := n
    objective := fun w => ((maximizar_sharpe s w rows rf : ℚ) : WithTop ℚ)
    x0 := List.replicate n (1 / (n : ℚ))
    bounds := List.replicate n (0, 1)
    cons := [⟨.eq, fun pesos => pesos.sum - 1⟩] }

/-- Source lines 70-82: target-return problem. The objective is the
plain `minimizar_volatilidad` (line 76); the return floor is appended
as the inequality constraint of line 72, not folded into the
objective. -/
def targetProblem (s : ℚ → ℚ) (rows : List (List ℚ)) (target : ℚ) : OptProblem :=
  let n := ncols rows
  { n := n
    objective := fun w => ((minimizar_volatilidad s w rows : ℚ) : WithTop ℚ)
    x0 := List.replicate n (1 / (n : ℚ))
    bounds := List.replicate n (0, 1)
    cons := [⟨.eq, fun pesos => pesos.sum - 1⟩,
             ⟨.ineq, fun pesos =>
               calcular_rendimiento_anualizado (portRet pesos rows) - target⟩] }

/-- Shape of the value returned by `optimizar_portafolio`: a pair of
weight vectors when no target return is given (line 67), a single
weight vector otherwise (line 83). -/
inductive OptResult where
  | pair (minVol maxSharpe : List ℚ)
  | single (w : List ℚ)
deriving DecidableEq, Repr

/-- Source lines 41-83 (`optimizar_portafolio`): dispatch on
`target_return`, run the solver on the problems above, and return the
terminal `x` of each call unconditionally. The solver itself
(`scipy.optimize.minimize`, external to the repository) is passed in
as a function. -/
def optimizar_portafolio (solver : OptProblem → SolverResult) (s : ℚ → ℚ)
    (rows : List (List ℚ)) (target : Option ℚ) (rf : ℚ) : OptResult :=
  match target with
  | none =>
    .pair (solver (minVolProblem s rows)).x (solver (maxSharpeProblem s rows rf)).x
  | some t => .single (solver (targetProblem s rows t)).x

/-- The weight-sum tolerance named by the spec. -/
def tol : ℚ := 1 / 1000000

/-- Satisfaction of one solver constraint within the spec tolerance. -/
def consOk (c : Constraint) (x : List ℚ) : Prop :=
  match c.ctype with
  | .eq => |c.f x| ≤ tol
  | .ineq => -tol ≤ c.f x

/-- Modelled from the spec: the contract of the external SLSQP solver
(`scipy.optimize.minimize`), which is not part of this repository.
Per the spec's algorithm paragraph, the solver keeps its terminal
vector inside the box bounds of the (well-formed) problem and returns
that vector regardless of convergence; the equality and inequality
constraints are only guaranteed (within tolerance) when the solver
reports success, and callers must inspect the convergence flag for a
hard guarantee. -/
def SolverOk (solver : OptProblem → SolverResult) : Prop :=
  ∀ p : OptProblem,
    (solver p).x.length = p.n ∧
    (∀ i, i < p.n →
      (p.bounds.getD i (0, 1)).1 ≤ (p.bounds.getD i (0, 1)).2 →
      (p.bounds.getD i (0, 1)).1 ≤ (solver p).x.getD i 0 ∧
      (solver p).x.getD i 0 ≤ (p.bounds.getD i (0, 1)).2) ∧
    ((solver p).success = true → ∀ c ∈ p.cons, consOk c ((solver p).x))

/-- Clamp a value into a bound pair. -/
def clamp (b : ℚ × ℚ) (v : ℚ) : ℚ := max b.1 (min b.2 v)

/-- Boolean check of `consOk`. -/
def consOkB (c : Constraint) (x : List ℚ) : Bool :=
  match c.ctype with
  | .eq => decide (|c.f x| ≤ tol)
  | .ineq => decide (-tol ≤ c.f x)

/-- A concrete solver satisfying `SolverOk`: clamp the start point
into the bounds and report success exactly when that point meets every
constraint within tolerance. -/
def goodSolver : OptProblem → SolverResult := fun p =>
  let x := (List.range p.n).map (fun i => clamp (p.bounds.getD i (0, 1)) (p.x0.getD i 0))
  ⟨x, p.cons.all (fun c => consOkB c x)⟩

/-- A concrete solver satisfying `SolverOk` that never reports
success: it returns `3/5` clamped into each bound, a terminal vector a
non-converged SLSQP run is allowed to produce. -/
def badSolver : OptProblem → SolverResult := fun p =>
  ⟨(List.range p.n).map (fun i => clamp (p.bounds.getD i (0, 1)) (3 / 5)), false⟩

/-! ## Helper lemmas -/

theorem getD_map_of_lt {α β : Type} [Inhabited β] (l : List α) (f : α → β) (d : α) (k : Nat)
    (h : k < l.length) : (l.map f).getD k (f d) = f (l.getD k d) := by
  induction l generalizing k with
  | nil => simp at h
  | cons a t ih =>
    cases k with
    | zero => rfl
    | succ k => exact ih k (by simpa using h)

theorem zip_self_eq (l : List ℚ) : l.zip l = l.map (fun x => (x, x)) := by
  induction l with
  | nil => rfl
  | cons a t ih => simp [List.zip_cons_cons, ih]

theorem mean_le_of_forall_le (l : List ℚ) (v : ℚ) (hne : l ≠ [])
    (h : ∀ x ∈ l, x ≤ v) : mean l ≤ v := by
  have hlen : 0 < (l.length : ℚ) := by
    have : 0 < l.length := List.length_pos.mpr hne
    exact_mod_cast this
  have hsum : l.sum ≤ (l.length : ℚ) * v := by
    have := List.sum_le_card_nsmul l v h
    simpa [nsmul_eq_mul] using this
  rw [mean, div_le_iff₀ hlen]
  linarith

/-! ## Claims C4, C5, C7, C8, C9 -/

/-- C7: `calcular_rendimientos_portafolio` fails with the dimension
mismatch error (the pandas `ValueError`) whenever the weight count
differs from the asset-column count, and otherwise returns the
row-wise weighted sum; on the two concrete asset series of the claim
with equal weights it returns exactly `[0.015, 0.0, 0.005, -0.01]`. -/
theorem C7_theorem :
    (∀ (rows : List (List ℚ)) (w : List ℚ), ncols rows ≠ w.length →
      calcular_rendimientos_portafolio rows w = .error .valueError) ∧
    (∀ (rows : List (List ℚ)) (w : List ℚ), ncols rows = w.length →
      calcular_rendimientos_portafolio rows w = .ok (rows.map (fun r => rowDot r w))) ∧
    calcular_rendimientos_portafolio
      [[1/100, 1/50], [-1/100, 1/100], [1/50, -1/100], [-1/50, 0]] [1/2, 1/2] =
      .ok [3/200, 0, 1/200, -1/100] := by
  refine ⟨?_, ?_, by norm_num [calcular_rendimientos_portafolio, ncols, rowDot]⟩ <;>
    · intro rows w h
      simp [calcular_rendimientos_portafolio, h]

theorem C7_witness :
    calcular_rendimientos_portafolio [[1/100, 1/50]] [1/2] = .error .valueError :=
  C7_theorem.1 [[1/100, 1/50]] [1/2] (by decide)

/-- C4 as amended: for every window of at least one period, both
windowed functions return the undefined sentinel when the series is
shorter than the window, and otherwise agree exactly with the
non-windowed function on the trailing `window`-element slice. -/
theorem C4_theorem (r : List ℚ) (window : Nat) (hw : 1 ≤ window) :
    (r.length < window →
      calcular_rendimiento_ventana r window = none ∧
      calcular_var_cvar_ventana r window = none) ∧
    (window ≤ r.length →
      calcular_rendimiento_ventana r window =
        some (compoundReturn (r.drop (r.length - window))) ∧
      calcular_var_cvar_ventana r window =
        some (calcular_var_cvar (r.drop (r.length - window)) (95 / 100))) := by
  have hw0 : window ≠ 0 := by omega
  constructor
  · intro h
    simp [calcular_rendimiento_ventana, calcular_var_cvar_ventana, h]
  · intro h
    have hlt : ¬ r.length < window := by omega
    simp [calcular_rendimiento_ventana, calcular_var_cvar_ventana, hlt, tailSlice, hw0]

theorem C4_witness :
    calcular_rendimiento_ventana [(1:ℚ)/100, 2/100, 3/100] 2 =
      some (compoundReturn (List.drop ([(1:ℚ)/100, 2/100, 3/100].length - 2)
        [(1:ℚ)/100, 2/100, 3/100])) :=
  ((C4_theorem [(1:ℚ)/100, 2/100, 3/100] 2 (by decide)).2 (by decide)).1

/-- C4 counterexample: at window 0 the claim as stated fails. The
slice `iloc[-0:]` is the whole series, so the code returns the
whole-series compound return (here `1`), while the value of the
non-windowed function on the trailing 0-element slice is `0`. -/
theorem C4_counterexample :
    calcular_rendimiento_ventana [(1 : ℚ)] 0 = some 1 ∧
    compoundReturn (List.drop ([(1 : ℚ)].length - 0) [(1 : ℚ)]) = 0 ∧
    (1 : ℚ) ≠ 0 := by
  norm_num [calcular_rendimiento_ventana, tailSlice, compoundReturn]

/-- C8 as amended: the metrics function raises only on the empty price
table (an index error from the normalization step, not an
insufficient-data error); for every nonempty table, also the 1-row
table, it returns the consecutive percent changes with the first
(undefined) row dropped, of length one less than the table. -/
theorem C8_theorem (p : List ℚ) :
    (p = [] → calcular_metricas p = .error .indexError) ∧
    (p ≠ [] →
      calcular_metricas p =
        .ok (pctChange p, cumulativeOf p, p.map (fun x => x / p.getD 0 0 * 100)) ∧
      (pctChange p).length = p.length - 1) := by
  constructor
  · intro h; subst h; rfl
  · intro h
    match p with
    | p0 :: rest =>
      refine ⟨rfl, ?_⟩
      simp [pctChange]

theorem C8_witness :
    calcular_metricas [(100 : ℚ), 110] =
      .ok (pctChange [(100 : ℚ), 110], cumulativeOf [(100 : ℚ), 110],
        [(100 : ℚ), 110].map (fun x => x / [(100 : ℚ), 110].getD 0 0 * 100)) ∧
    (pctChange [(100 : ℚ), 110]).length = 1 :=
  (C8_theorem [(100 : ℚ), 110]).2 (by simp)

/-- C8 counterexample: a price table with a single observation (fewer
than 2) does not fail: the code returns an empty return series. -/
theorem C8_counterexample :
    calcular_metricas [(100 : ℚ)] = .ok ([], [], [100]) ∧
    ∀ e : PyError, calcular_metricas [(100 : ℚ)] ≠ .error e := by
  refine ⟨by norm_num [calcular_metricas, pctChange, cumulativeOf, cumprodList], ?_⟩
  intro e h
  simp [calcular_metricas, pctChange, cumulativeOf] at h

/-- C9: because `calcular_beta` divides the sample covariance
(ddof = 1) by the population variance (ddof = 0), the beta of a series
against itself is `n / (n - 1)` rather than 1, and in general every
beta equals the matching-convention ratio inflated by `n / (n - 1)`. -/
theorem C9_theorem (r : List ℚ) (h2 : 2 ≤ r.length) (hv : varPop r ≠ 0) :
    calcular_beta r r = some ((r.length : ℚ) / ((r.length : ℚ) - 1)) ∧
    (r.length : ℚ) / ((r.length : ℚ) - 1) ≠ 1 ∧
    ∀ a : List ℚ, a.length = r.length →
      calcular_beta a r =
        some (((r.length : ℚ) / ((r.length : ℚ) - 1)) * (covPop a r / varPop r)) := by
  have hn : (2 : ℚ) ≤ (r.length : ℚ) := by exact_mod_cast h2
  have hn0 : (r.length : ℚ) ≠ 0 := by linarith
  have hn1 : (r.length : ℚ) - 1 ≠ 0 := by
    intro h; rw [sub_eq_zero] at h; linarith [h]
  have hSS : (r.map (fun x => (x - mean r) ^ 2)).sum = varPop r * (r.length : ℚ) := by
    rw [varPop, div_mul_cancel₀ _ hn0]
  have hcovrr : covSample r r = (r.map (fun x => (x - mean r) ^ 2)).sum / ((r.length : ℚ) - 1) := by
    have hfun : ((fun p : ℚ × ℚ => (p.1 - mean r) * (p.2 - mean r)) ∘ fun x => (x, x)) =
        fun x : ℚ => (x - mean r) ^ 2 := by
      funext x
      simp only [Function.comp_apply]
      ring
    rw [covSample, zip_self_eq, List.map_map, hfun]
  refine ⟨?_, ?_, ?_⟩
  · rw [calcular_beta, if_pos hv, hcovrr, hSS]
    congr 1
    field_simp
    ring
  · intro h
    rw [div_eq_one_iff_eq hn1] at h
    linarith [h]
  · intro a ha
    rw [calcular_beta, if_pos hv]
    congr 1
    rw [covSample, covPop, ha]
    field_simp
    ring

theorem C9_witness :
    calcular_beta [(0 : ℚ), 1] [(0 : ℚ), 1] =
      some (([(0 : ℚ), 1].length : ℚ) / (([(0 : ℚ), 1].length : ℚ) - 1)) :=
  (C9_theorem [(0 : ℚ), 1] (by decide) (by norm_num [varPop, mean])).1

/-- C5 as amended: the Sharpe ratio is the stated closed-form quotient
whenever the standard deviation of the excess returns is nonzero, but
at zero standard deviation the unguarded float division yields a
signed infinity (NaN only when the mean excess return is also zero),
not the NaN sentinel; it never raises. -/
theorem C5_theorem (s : ℚ → ℚ) (r : List ℚ) (rf : ℚ) :
    (std s (r.map (fun x => x - rf / 252)) ≠ 0 →
      calcular_sharpe_ratio s r rf =
        .fin (s 252 * mean (r.map (fun x => x - rf / 252)) /
          std s (r.map (fun x => x - rf / 252)))) ∧
    (std s (r.map (fun x => x - rf / 252)) = 0 →
      calcular_sharpe_ratio s r rf =
        (if s 252 * mean (r.map (fun x => x - rf / 252)) = 0 then PyF.nan
         else if 0 < s 252 * mean (r.map (fun x => x - rf / 252)) then PyF.inf
         else PyF.ninf)) := by
  constructor <;> intro h <;> simp [calcular_sharpe_ratio, PyF.mul, PyF.div, h]

theorem C5_witness :
    calcular_sharpe_ratio id [(1:ℚ)/1000, 1/1000] (1/50) = PyF.inf := by
  have h := (C5_theorem id [(1:ℚ)/1000, 1/1000] (1/50)).2 (by norm_num [std, var1, mean])
  rw [h]
  norm_num [mean]

/-- C5 counterexample: on the constant positive return series of the
claim the unguarded division returns positive infinity, which is not
the NaN sentinel the claim asserts. -/
theorem C5_counterexample :
    calcular_sharpe_ratio id [(1:ℚ)/1000, 1/1000] (1/50) = PyF.inf ∧
    PyF.inf ≠ PyF.nan := by
  refine ⟨?_, by simp⟩
  have hstd : std id (List.map (fun x => x - 1 / 50 / 252) [(1:ℚ)/1000, 1/1000]) = 0 := by
    norm_num [std, var1, mean]
  simp only [calcular_sharpe_ratio, PyF.mul, PyF.div, hstd]
  norm_num [mean]

/-! ## Claim C6 -/

theorem length_cumprodList (l : List ℚ) : (cumprodList l).length = l.length := by
  induction l with
  | nil => rfl
  | cons a t ih => simp [cumprodList, ih]

theorem getD_map_at {α β : Type} (l : List α) (f : α → β) (k : Nat) (h : k < l.length)
    (d : α) (e : β) : (l.map f).getD k e = f (l.getD k d) := by
  induction l generalizing k with
  | nil => simp at h
  | cons a t ih =>
    cases k with
    | zero => rfl
    | succ k => exact ih k (by simpa using h)

theorem pctChange_cons (a b : ℚ) (t : List ℚ) :
    pctChange (a :: b :: t) = (b / a - 1) :: pctChange (b :: t) := rfl

theorem length_pctChange_cons (a : ℚ) (t : List ℚ) :
    (pctChange (a :: t)).length = t.length := by
  simp [pctChange]

theorem recon_aux (rest : List ℚ) : ∀ a : ℚ, a ≠ 0 → (∀ x ∈ rest, x ≠ 0) →
    ∀ k, k < rest.length →
      a * (cumprodList ((pctChange (a :: rest)).map (fun r => 1 + r))).getD k 0 =
        rest.getD k 0 := by
  induction rest with
  | nil => intro a _ _ k hk; simp at hk
  | cons b t ih =>
    intro a ha hnz k hk
    have hb : b ≠ 0 := hnz b (by simp)
    have hfirst : (1 : ℚ) + (b / a - 1) = b / a := by ring
    rw [pctChange_cons, List.map_cons, hfirst, cumprodList]
    cases k with
    | zero =>
      simp [div_mul_cancel₀, mul_div_cancel₀, ha]
    | succ k =>
      have hk' : k < t.length := by simpa using hk
      have hklen : k < (cumprodList ((pctChange (b :: t)).map (fun r => 1 + r))).length := by
        rw [length_cumprodList, List.length_map, length_pctChange_cons]
        exact hk'
      have hmap := getD_map_at
        (cumprodList ((pctChange (b :: t)).map (fun r => 1 + r)))
        (fun y => b / a * y) k hklen 0 0
      simp only [List.getD_cons_succ, hmap]
      have haux : a * (b / a *
          (cumprodList ((pctChange (b :: t)).map (fun r => 1 + r))).getD k 0) =
          b * (cumprodList ((pctChange (b :: t)).map (fun r => 1 + r))).getD k 0 := by
        field_simp
      rw [haux]
      exact ih b hb (fun x hx => hnz x (by simp [hx])) k hk'

/-- C6: for every price series of at least two observations with no
zero price, each reconstructed price `price[0] * (1 + cumulative[k])`
equals the original price at position `k + 1` exactly (the embedding
is exact rational arithmetic, so the floating-point tolerance of the
claim is met with exact equality), and the cumulative series has one
entry per consecutive pair. -/
theorem C6_theorem (p : List ℚ) (h2 : 2 ≤ p.length) (hnz : ∀ x ∈ p, x ≠ 0) :
    (cumulativeOf p).length = p.length - 1 ∧
    ∀ k, k < (cumulativeOf p).length →
      p.getD 0 0 * (1 + (cumulativeOf p).getD k 0) = p.getD (k + 1) 0 := by
  match p with
  | a :: rest =>
    have hlen : (cumulativeOf (a :: rest)).length = rest.length := by
      simp [cumulativeOf, length_cumprodList, length_pctChange_cons]
    refine ⟨by simpa using hlen, ?_⟩
    intro k hk
    rw [hlen] at hk
    have ha : a ≠ 0 := hnz a (by simp)
    have hrest : ∀ x ∈ rest, x ≠ 0 := fun x hx => hnz x (by simp [hx])
    have hklen : k < (cumprodList ((pctChange (a :: rest)).map (fun r => 1 + r))).length := by
      rw [length_cumprodList, List.length_map, length_pctChange_cons]
      exact hk
    have hcum : (cumulativeOf (a :: rest)).getD k 0 =
        (cumprodList ((pctChange (a :: rest)).map (fun r => 1 + r))).getD k 0 - 1 := by
      rw [cumulativeOf]
      exact getD_map_at _ (fun y => y - 1) k hklen 0 0
    simp only [List.getD_cons_zero, List.getD_cons_succ, hcum]
    have harr : a * (1 + ((cumprodList ((pctChange (a :: rest)).map (fun r => 1 + r))).getD k 0 - 1)) =
        a * (cumprodList ((pctChange (a :: rest)).map (fun r => 1 + r))).getD k 0 := by
      ring
    rw [harr]
    exact recon_aux rest a ha hrest k hk

theorem C6_witness :
    [(100:ℚ), 110].getD 0 0 * (1 + (cumulativeOf [(100:ℚ), 110]).getD 0 0) =
      [(100:ℚ), 110].getD 1 0 := by
  have hnz : ∀ x ∈ [(100:ℚ), 110], x ≠ 0 := by
    intro x hx
    simp only [List.mem_cons, List.not_mem_nil, or_false] at hx
    rcases hx with h | h <;> rw [h] <;> norm_num
  have h := (C6_theorem [(100:ℚ), 110] (by decide) hnz).2
  apply h 0
  rw [(C6_theorem [(100:ℚ), 110] (by decide) hnz).1]
  decide

/-! ## Claim C3 -/

theorem quantile_ge_sorted_head (r : List ℚ) (q : ℚ) (hne : r ≠ [])
    (hq0 : 0 ≤ q) (hq1 : q ≤ 1) :
    (List.insertionSort (· ≤ ·) r).getD 0 0 ≤ quantile r q := by
  have hn : 1 ≤ r.length := List.length_pos.mpr hne
  have hslen : (List.insertionSort (· ≤ ·) r).length = r.length :=
    List.length_insertionSort _ _
  have hsort : (List.insertionSort (· ≤ ·) r).Sorted (· ≤ ·) :=
    List.sorted_insertionSort _ _
  have hnq : (1 : ℚ) ≤ (r.length : ℚ) := by exact_mod_cast hn
  have hh0 : 0 ≤ ((r.length : ℚ) - 1) * q := mul_nonneg (by linarith) hq0
  have hh1 : ((r.length : ℚ) - 1) * q ≤ (r.length : ℚ) - 1 :=
    mul_le_of_le_one_right (by linarith) hq1
  have hfl0 : 0 ≤ ⌊((r.length : ℚ) - 1) * q⌋ := Int.floor_nonneg.mpr hh0
  have hfl_le : ⌊((r.length : ℚ) - 1) * q⌋ ≤ (r.length : ℤ) - 1 := by
    have hle := Int.floor_le_floor hh1
    have hfloor_cast : ⌊(r.length : ℚ) - 1⌋ = (r.length : ℤ) - 1 := by
      rw [show ((r.length : ℚ) - 1) = (((r.length : ℤ) - 1 : ℤ) : ℚ) by push_cast; ring]
      exact Int.floor_intCast _
    rw [hfloor_cast] at hle
    exact hle
  have hi_lt : ⌊((r.length : ℚ) - 1) * q⌋.toNat < r.length := by omega
  have hj_lt : min (⌊((r.length : ℚ) - 1) * q⌋.toNat + 1) (r.length - 1) < r.length := by
    omega
  have hicast : ((⌊((r.length : ℚ) - 1) * q⌋.toNat : ℕ) : ℚ) = (⌊((r.length : ℚ) - 1) * q⌋ : ℚ) := by
    exact_mod_cast congrArg (fun z : ℤ => (z : ℚ)) (Int.toNat_of_nonneg hfl0)
  have hfrac : 0 ≤ ((r.length : ℚ) - 1) * q - ((⌊((r.length : ℚ) - 1) * q⌋.toNat : ℕ) : ℚ) := by
    rw [hicast]
    have := Int.floor_le (((r.length : ℚ) - 1) * q)
    linarith
  have hlo_get : (List.insertionSort (· ≤ ·) r).getD (⌊((r.length : ℚ) - 1) * q⌋.toNat) 0 =
      (List.insertionSort (· ≤ ·) r).get ⟨⌊((r.length : ℚ) - 1) * q⌋.toNat, by omega⟩ :=
    List.getD_eq_get _ 0 (by omega)
  have hhi_get : (List.insertionSort (· ≤ ·) r).getD
      (min (⌊((r.length : ℚ) - 1) * q⌋.toNat + 1) (r.length - 1)) 0 =
      (List.insertionSort (· ≤ ·) r).get
        ⟨min (⌊((r.length : ℚ) - 1) * q⌋.toNat + 1) (r.length - 1), by omega⟩ :=
    List.getD_eq_get _ 0 (by omega)
  have hhead_get : (List.insertionSort (· ≤ ·) r).getD 0 0 =
      (List.insertionSort (· ≤ ·) r).get ⟨0, by omega⟩ :=
    List.getD_eq_get _ 0 (by omega)
  have hhead_le_lo : (List.insertionSort (· ≤ ·) r).get ⟨0, by omega⟩ ≤
      (List.insertionSort (· ≤ ·) r).get ⟨⌊((r.length : ℚ) - 1) * q⌋.toNat, by omega⟩ :=
    hsort.rel_get_of_le (by simp)
  have hlo_le_hi : (List.insertionSort (· ≤ ·) r).get ⟨⌊((r.length : ℚ) - 1) * q⌋.toNat, by omega⟩ ≤
      (List.insertionSort (· ≤ ·) r).get
        ⟨min (⌊((r.length : ℚ) - 1) * q⌋.toNat + 1) (r.length - 1), by omega⟩ :=
    hsort.rel_get_of_le (by simp [Fin.le_def]; omega)
  rw [quantile, hlo_get, hhi_get, hhead_get]
  nlinarith [mul_nonneg hfrac (sub_nonneg.mpr hlo_le_hi)]

/-- C3: at confidence 0.95 the function returns exactly the pair
(0.05-quantile, mean of the observations at or below it), and for
every nonempty (in particular every non-degenerate) return series the
CVaR component is at most the VaR component. -/
theorem C3_theorem (r : List ℚ) (hne : r ≠ []) :
    calcular_var_cvar r (95/100) =
      (quantile r (1/20), mean (r.filter (fun x => x ≤ quantile r (1/20)))) ∧
    (calcular_var_cvar r (95/100)).2 ≤ (calcular_var_cvar r (95/100)).1 := by
  have hq : (1 : ℚ) - 95/100 = 1/20 := by norm_num
  have key : mean (r.filter (fun x => x ≤ quantile r (1/20))) ≤ quantile r (1/20) := by
    have hhead : (List.insertionSort (· ≤ ·) r).getD 0 0 ≤ quantile r (1/20) :=
      quantile_ge_sorted_head r (1/20) hne (by norm_num) (by norm_num)
    have hslen : 0 < (List.insertionSort (· ≤ ·) r).length := by
      rw [List.length_insertionSort]
      exact List.length_pos.mpr hne
    have hmem_s : (List.insertionSort (· ≤ ·) r).getD 0 0 ∈ List.insertionSort (· ≤ ·) r := by
      rw [List.getD_eq_get _ 0 hslen]
      exact List.get_mem _ _ _
    have hmem_r : (List.insertionSort (· ≤ ·) r).getD 0 0 ∈ r :=
      (List.mem_insertionSort _).mp hmem_s
    have hfilter_ne : r.filter (fun x => x ≤ quantile r (1/20)) ≠ [] := by
      intro hf
      have hm : (List.insertionSort (· ≤ ·) r).getD 0 0 ∈
          r.filter (fun x => x ≤ quantile r (1/20)) :=
        List.mem_filter.mpr ⟨hmem_r, by simpa using hhead⟩
      rw [hf] at hm
      simp at hm
    refine mean_le_of_forall_le _ _ hfilter_ne ?_
    intro x hx
    have := (List.mem_filter.mp hx).2
    simpa using this
  refine ⟨by rw [calcular_var_cvar, hq], ?_⟩
  rw [calcular_var_cvar, hq]
  exact key

theorem C3_witness :
    (calcular_var_cvar [-(1:ℚ)/10, 0, 1/10, 2/10] (95/100)).2 ≤
      (calcular_var_cvar [-(1:ℚ)/10, 0, 1/10, 2/10] (95/100)).1 :=
  (C3_theorem [-(1:ℚ)/10, 0, 1/10, 2/10] (by simp)).2

/-! ## Solver-model lemmas for the optimizer claims -/

theorem getD_range_map {α : Type} (n : Nat) (f : Nat → α) (i : Nat) (d : α) (h : i < n) :
    ((List.range n).map f).getD i d = f i := by
  rw [List.getD_eq_get _ _ (by simpa using h)]
  simp

theorem getD_replicate_of_lt {α : Type} (n i : Nat) (a d : α) (h : i < n) :
    (List.replicate n a).getD i d = a := by
  rw [List.getD_eq_get _ _ (by simpa using h)]
  simp

theorem clamp_mem (b : ℚ × ℚ) (v : ℚ) (h : b.1 ≤ b.2) :
    b.1 ≤ clamp b v ∧ clamp b v ≤ b.2 :=
  ⟨le_max_left _ _, max_le h (min_le_left _ _)⟩

theorem consOkB_eq_true (c : Constraint) (x : List ℚ) :
    consOkB c x = true ↔ consOk c x := by
  obtain ⟨ct, f⟩ := c
  cases ct <;> simp [consOkB, consOk]

theorem solverOk_goodSolver : SolverOk goodSolver := by
  intro p
  refine ⟨by simp [goodSolver], ?_, ?_⟩
  · intro i hi hb
    have hx : (goodSolver p).x.getD i 0 =
        clamp (p.bounds.getD i (0, 1)) (p.x0.getD i 0) := by
      simp only [goodSolver]
      exact getD_range_map p.n _ i 0 hi
    rw [hx]
    exact clamp_mem _ _ hb
  · intro hs c hc
    have hall : ∀ c ∈ p.cons, consOkB c ((goodSolver p).x) = true := by
      have := List.all_eq_true.mp hs
      simpa [goodSolver] using this
    exact (consOkB_eq_true c _).mp (hall c hc)

theorem solverOk_badSolver : SolverOk badSolver := by
  intro p
  refine ⟨by simp [badSolver], ?_, ?_⟩
  · intro i hi hb
    have hx : (badSolver p).x.getD i 0 = clamp (p.bounds.getD i (0, 1)) (3 / 5) := by
      simp only [badSolver]
      exact getD_range_map p.n _ i 0 hi
    rw [hx]
    exact clamp_mem _ _ hb
  · intro hs
    simp [badSolver] at hs

theorem solver_output_feasible (solver : OptProblem → SolverResult) (hok : SolverOk solver)
    (p : OptProblem) (hb : p.bounds = List.replicate p.n ((0 : ℚ), (1 : ℚ)))
    (hc : (⟨CType.eq, fun pesos => pesos.sum - 1⟩ : Constraint) ∈ p.cons) :
    (∀ i, i < (solver p).x.length →
      0 ≤ (solver p).x.getD i 0 ∧ (solver p).x.getD i 0 ≤ 1) ∧
    ((solver p).success = true → |(solver p).x.sum - 1| ≤ tol) := by
  obtain ⟨hlen, hbounds, hcons⟩ := hok p
  constructor
  · intro i hi
    rw [hlen] at hi
    have hbd : p.bounds.getD i (0, 1) = (0, 1) := by
      rw [hb]
      exact getD_replicate_of_lt p.n i _ _ hi
    have h := hbounds i hi (by rw [hbd]; norm_num)
    rw [hbd] at h
    exact h
  · intro hs
    exact hcons hs _ hc

/-! ## Claims C1, C2, C10 -/

/-- C1 as amended: under the spec's contract for the external SLSQP
solver, every weight vector returned by `optimizar_portafolio` in all
three modes has each entry in [0, 1]; the entries sum to 1 within the
1e-6 tolerance whenever the solver reports convergence on the
corresponding problem, but not necessarily otherwise (the code returns
the terminal vector without inspecting the convergence flag). -/
theorem C1_theorem (solver : OptProblem → SolverResult) (hok : SolverOk solver)
    (s : ℚ → ℚ) (rows : List (List ℚ)) (rf t : ℚ) :
    (∀ w1 w2, optimizar_portafolio solver s rows none rf = .pair w1 w2 →
      ((∀ i, i < w1.length → 0 ≤ w1.getD i 0 ∧ w1.getD i 0 ≤ 1) ∧
        ((solver (minVolProblem s rows)).success = true → |w1.sum - 1| ≤ tol)) ∧
      ((∀ i, i < w2.length → 0 ≤ w2.getD i 0 ∧ w2.getD i 0 ≤ 1) ∧
        ((solver (maxSharpeProblem s rows rf)).success = true → |w2.sum - 1| ≤ tol))) ∧
    (∀ w, optimizar_portafolio solver s rows (some t) rf = .single w →
      (∀ i, i < w.length → 0 ≤ w.getD i 0 ∧ w.getD i 0 ≤ 1) ∧
      ((solver (targetProblem s rows t)).success = true → |w.sum - 1| ≤ tol)) := by
  constructor
  · intro w1 w2 hw
    simp only [optimizar_portafolio] at hw
    injection hw with h1 h2
    subst h1
    subst h2
    exact ⟨solver_output_feasible solver hok (minVolProblem s rows) rfl
        (List.mem_cons_self _ _),
      solver_output_feasible solver hok (maxSharpeProblem s rows rf) rfl
        (List.mem_cons_self _ _)⟩
  · intro w hw
    simp only [optimizar_portafolio] at hw
    injection hw with h1
    subst h1
    exact solver_output_feasible solver hok (targetProblem s rows t) rfl
      (List.mem_cons_self _ _)

theorem C1_witness :
    0 ≤ ((goodSolver (minVolProblem id [[0, 0], [0, 0]])).x).getD 0 0 ∧
    ((goodSolver (minVolProblem id [[0, 0], [0, 0]])).x).getD 0 0 ≤ 1 := by
  have h := ((C1_theorem goodSolver solverOk_goodSolver id [[0, 0], [0, 0]] (1/50) 0).1
    (goodSolver (minVolProblem id [[0, 0], [0, 0]])).x
    (goodSolver (maxSharpeProblem id [[0, 0], [0, 0]] (1/50))).x rfl).1.1
  apply h 0
  have hl := (solverOk_goodSolver (minVolProblem id [[0, 0], [0, 0]])).1
  rw [hl]
  decide

/-- C1 counterexample: a solver obeying the spec-modelled SLSQP
contract but reporting non-convergence may return, from the very
problems the code builds, a terminal vector whose entries are inside
the box bounds yet sum to 6/5; the code returns it unchecked, so the
returned weights miss the sum-to-1 tolerance by 0.2. -/
theorem C1_counterexample :
    SolverOk badSolver ∧
    optimizar_portafolio badSolver id [[0, 0], [0, 0]] none (1/50) =
      .pair (badSolver (minVolProblem id [[0, 0], [0, 0]])).x
            (badSolver (maxSharpeProblem id [[0, 0], [0, 0]] (1/50))).x ∧
    ((badSolver (minVolProblem id [[0, 0], [0, 0]])).x).sum = 6/5 ∧
    ¬ |(6 : ℚ)/5 - 1| ≤ tol := by
  refine ⟨solverOk_badSolver, rfl, ?_, by rw [tol, abs_of_nonneg (by norm_num)]; norm_num⟩
  have hx : (badSolver (minVolProblem id [[0, 0], [0, 0]])).x =
      [clamp (0, 1) (3/5), clamp (0, 1) (3/5)] := rfl
  have hcl : clamp ((0 : ℚ), (1 : ℚ)) (3/5) = 3/5 := by
    show max (0 : ℚ) (min 1 (3/5)) = 3/5
    rw [min_eq_right (by norm_num), max_eq_right (by norm_num)]
  rw [hx, hcl]
  norm_num

/-- C2 as amended: `volatilidad_con_objetivo` does return the
annualized volatility when the annualized portfolio return reaches the
target and positive infinity when it is strictly below, but it is dead
code: the target-return optimization minimizes the plain
`minimizar_volatilidad` objective and imposes the return floor as an
inequality constraint instead. -/
theorem C2_theorem (s : ℚ → ℚ) (rows : List (List ℚ)) (w : List ℚ) (t : ℚ) :
    (calcular_rendimiento_anualizado (portRet w rows) < t →
      volatilidad_con_objetivo s w rows t = ⊤) ∧
    (t ≤ calcular_rendimiento_anualizado (portRet w rows) →
      volatilidad_con_objetivo s w rows t =
        ((calcular_volatilidad_anualizada s (portRet w rows) : ℚ) : WithTop ℚ)) ∧
    (targetProblem s rows t).objective w =
      ((minimizar_volatilidad s w rows : ℚ) : WithTop ℚ) ∧
    (targetProblem s rows t).cons.map Constraint.ctype = [CType.eq, CType.ineq] ∧
    ((targetProblem s rows t).cons.getD 1 ⟨CType.eq, fun _ => 0⟩).f w =
      calcular_rendimiento_anualizado (portRet w rows) - t := by
  refine ⟨?_, ?_, rfl, rfl, rfl⟩
  · intro h
    simp only [volatilidad_con_objetivo]
    rw [if_neg (not_le.mpr h)]
  · intro h
    simp only [volatilidad_con_objetivo]
    rw [if_pos h]

theorem C2_witness :
    volatilidad_con_objetivo id [(1:ℚ)/2, 1/2] [[0, 0], [0, 0]] (-1) =
      ((calcular_volatilidad_anualizada id (portRet [(1:ℚ)/2, 1/2] [[0, 0], [0, 0]]) : ℚ) :
        WithTop ℚ) := by
  refine (C2_theorem id [[0, 0], [0, 0]] [(1:ℚ)/2, 1/2] (-1)).2.1 ?_
  norm_num [calcular_rendimiento_anualizado, portRet, rowDot, mean]

/-- C2 counterexample: at a concrete weight vector whose annualized
return is strictly below the target, the objective actually handed to
the solver in target-return mode is finite, while the penalized
objective of the claim is infinite, so they are not the same
function. -/
theorem C2_counterexample :
    (targetProblem id [[0, 0], [0, 0]] (1/10)).objective [(1:ℚ)/2, 1/2] =
      ((minimizar_volatilidad id [(1:ℚ)/2, 1/2] [[0, 0], [0, 0]] : ℚ) : WithTop ℚ) ∧
    volatilidad_con_objetivo id [(1:ℚ)/2, 1/2] [[0, 0], [0, 0]] (1/10) = ⊤ ∧
    ((minimizar_volatilidad id [(1:ℚ)/2, 1/2] [[0, 0], [0, 0]] : ℚ) : WithTop ℚ) ≠ ⊤ := by
  refine ⟨rfl, ?_, WithTop.coe_ne_top⟩
  simp only [volatilidad_con_objetivo]
  rw [if_neg]
  norm_num [calcular_rendimiento_anualizado, portRet, rowDot, mean]

/-- C10: with no target return the entry point runs the solver on the
two problems (minimum volatility, then maximum Sharpe) and returns the
pair of terminal vectors; with a target return it runs the single
target problem and returns one vector; all three problems start from
the same uniform vector, and the two result shapes are distinct, so no
single call yields both kinds of solution. -/
theorem C10_theorem (solver : OptProblem → SolverResult) (s : ℚ → ℚ)
    (rows : List (List ℚ)) (rf t : ℚ) :
    optimizar_portafolio solver s rows none rf =
      .pair (solver (minVolProblem s rows)).x (solver (maxSharpeProblem s rows rf)).x ∧
    optimizar_portafolio solver s rows (some t) rf =
      .single (solver (targetProblem s rows t)).x ∧
    (minVolProblem s rows).x0 = List.replicate (ncols rows) (1 / (ncols rows : ℚ)) ∧
    (maxSharpeProblem s rows rf).x0 = (minVolProblem s rows).x0 ∧
    (targetProblem s rows t).x0 = (minVolProblem s rows).x0 ∧
    ∀ a b c : List ℚ, OptResult.pair a b ≠ OptResult.single c := by
  refine ⟨rfl, rfl, rfl, rfl, rfl, ?_⟩
  intro a b c h
  exact OptResult.noConfusion h

theorem C10_witness :
    optimizar_portafolio goodSolver id [[0, 0], [0, 0]] none (1/50) =
      .pair (goodSolver (minVolProblem id [[0, 0], [0, 0]])).x
            (goodSolver (maxSharpeProblem id [[0, 0], [0, 0]] (1/50))).x ∧
    OptResult.pair [(3:ℚ)/5, 3/5] [(3:ℚ)/5, 3/5] ≠ OptResult.single [(3:ℚ)/5, 3/5] :=
  ⟨(C10_theorem goodSolver id [[0, 0], [0, 0]] (1/50) 0).1,
    (C10_theorem goodSolver id [[0, 0], [0, 0]] (1/50) 0).2.2.2.2.2 _ _ _⟩

end App
